import Mathlib

/-!
Verification of the VSCode extensions marketplace crawler
(`marketplace_crawler.py`, `data_processor.py`) against its
natural-language specification.

The Python code is shallowly embedded: JSON values become an inductive
`Json` type, Python dict/method semantics (including the exceptions that
`dict.get`, subscripting and `str.split` can raise on ill-typed
operands) become `Except PyError` computations, and the two source
modules' functions become structurally recursive Lean definitions.
-/

namespace Crawler

/-- JSON values as loaded by Python's `json` module.  A JSON object is a
Python `dict`, kept here as an insertion-ordered association list;
`null` is Python's `None`. -/
inductive Json where
  | null : Json
  | bool : Bool → Json
  | num : Int → Json
  | str : String → Json
  | arr : List Json → Json
  | obj : List (String × Json) → Json
deriving Repr

/-- Python exceptions that the embedded code can raise. -/
inductive PyError where
  | attributeError : PyError
  | typeError : PyError
  | keyError : PyError
  | indexError : PyError
deriving Repr, DecidableEq

/-- First binding of a key in an association list (Python dict lookup;
dict keys are unique, so first-match agrees with dict semantics). -/
def alistFind (k : String) : List (String × Json) → Option Json
  | [] => none
  | (k', v) :: rest => if k' = k then some v else alistFind k rest

/-- Python `value.get(key)`: dict lookup returning `None` when the key
is missing; raises `AttributeError` when `value` is not a dict.
A JSON `null` stored under the key is returned as `null`, which is the
same Python object (`None`) as the missing-key default. -/
def dictGet (v : Json) (k : String) : Except PyError Json :=
  match v with
  | .obj fields => .ok ((alistFind k fields).getD .null)
  | _ => .error .attributeError

/-- Python `value.get(key, default)`: the default is used only when the
key is missing, not when it maps to `null`. -/
def dictGetD (v : Json) (k : String) (dflt : Json) : Except PyError Json :=
  match v with
  | .obj fields => .ok ((alistFind k fields).getD dflt)
  | _ => .error .attributeError

/-- Python truthiness of a JSON value (`if not extensions`, `and value`). -/
def pyTruthy : Json → Bool
  | .null => false
  | .bool b => b
  | .num n => n ≠ 0
  | .str s => s ≠ ""
  | .arr xs => !xs.isEmpty
  | .obj fields => !fields.isEmpty

/-- Split a character list at every occurrence of the separator
character; mirrors Python `str.split(sep)` for a one-character `sep`
(so the empty string splits to `[""]`, and separators at the ends
produce empty pieces). -/
def splitOnChar (c : Char) : List Char → List (List Char)
  | [] => [[]]
  | x :: xs =>
    let rest := splitOnChar c xs
    if x = c then [] :: rest
    else
      match rest with
      | r :: rs => (x :: r) :: rs
      | [] => [[x]]

/-- Python `s.split(c)` for a single-character separator. -/
def pySplit (s : String) (c : Char) : List String :=
  (splitOnChar c s.data).map (fun l => String.mk l)

/-- `listPrefixEq pre xs` decides whether `pre` is a prefix of `xs`. -/
def listPrefixEq : List Char → List Char → Bool
  | [], _ => true
  | _ :: _, [] => false
  | x :: xs, y :: ys => x = y && listPrefixEq xs ys

/-- Python `s.startswith(pre)`. -/
def pyStartsWith (s pre : String) : Bool :=
  listPrefixEq pre.data s.data

/-- `ExtensionFields.FIELD_MAPPING` from `data_processor.py`: the fixed
ordered schema mapping output column names to extraction paths. -/
def FIELD_MAPPING : List (String × String) :=
  [ ("publisherId", "publisher_publisherId"),
    ("publisherName", "publisher_publisherName"),
    ("publisherDisplayName", "publisher_displayName"),
    ("extensionId", "extensionId"),
    ("extensionName", "extensionName"),
    ("extensionDisplayName", "displayName"),
    ("lastUpdated", "lastUpdated"),
    ("publishedDate", "publishedDate"),
    ("install", "statistics_install"),
    ("averagerating", "statistics_averagerating"),
    ("ratingcount", "statistics_ratingcount"),
    ("trendingdaily", "statistics_trendingdaily"),
    ("trendingmonthly", "statistics_trendingmonthly"),
    ("downloadCount", "statistics_downloadCount"),
    ("categories", "categories"),
    ("tags", "tags"),
    ("pricing", "pricing"),
    ("hasIcon", "hasIcon") ]

/-- The loop body of `ExtensionDataProcessor._extract_nested_value`:
`value = value.get(key)` (raising `AttributeError` when `value` is not
a dict), then `if value is None: return None`. -/
def extractNestedValue (data : Json) : List String → Except PyError Json
  | [] => .ok data
  | k :: ks => do
    let v ← dictGet data k
    match v with
    | .null => .ok .null
    | v' => extractNestedValue v' ks

/-- Python iteration `for x in v` over a JSON value: lists iterate their
elements, strings their characters, dicts their keys; other values
raise `TypeError`. -/
def pyIter : Json → Except PyError (List Json)
  | .arr xs => .ok xs
  | .str s => .ok (s.data.map (fun c => .str (String.mk [c])))
  | .obj fields => .ok (fields.map (fun p => .str p.1))
  | _ => .error .typeError

/-- The scan loop of `ExtensionDataProcessor._extract_statistic_value`:
return `stat.get('value')` for the first `stat` whose
`statisticName` equals the target, else `None`. -/
def findStat (statName : String) : List Json → Except PyError Json
  | [] => .ok .null
  | stat :: rest => do
    let n ← dictGet stat "statisticName"
    match n with
    | .str s =>
      if s = statName then dictGet stat "value"
      else findStat statName rest
    | _ => findStat statName rest

/-- `ExtensionDataProcessor._extract_statistic_value`. -/
def extractStatisticValue (ext : Json) (statName : String) : Except PyError Json := do
  let stats ← dictGetD ext "statistics" (.arr [])
  let items ← pyIter stats
  findStat statName items

/-- Python `value.split('T')[0]`: raises `AttributeError` when the
value is not a string (non-strings have no `split` method). -/
def pySplitTHead : Json → Except PyError Json
  | .str s => .ok (.str ((pySplit s 'T').headD ""))
  | _ => .error .attributeError

/-- One iteration of the field loop in
`ExtensionDataProcessor._process_extension`: statistics paths go to
the statistics lookup (the statistic name is `field_path.split('_')[1]`),
other paths to nested extraction followed by date truncation for the
two date fields (guarded by Python truthiness of the value). -/
def processField (ext : Json) (fieldPath : String) : Except PyError Json :=
  if pyStartsWith fieldPath "statistics_" then
    extractStatisticValue ext ((pySplit fieldPath '_').getD 1 "")
  else do
    let v ← extractNestedValue ext (pySplit fieldPath '_')
    if (fieldPath = "lastUpdated" ∨ fieldPath = "publishedDate") ∧ pyTruthy v then
      pySplitTHead v
    else
      .ok v

/-- `ExtensionDataProcessor._process_extension`: one flat row, one value
per `FIELD_MAPPING` entry in schema order; the first raised exception
propagates. -/
def processExtension (ext : Json) : Except PyError (List Json) :=
  (FIELD_MAPPING.map Prod.snd).mapM (processField ext)

/-- Python subscripting `v[i]` for a non-negative integer index: lists
and strings index their elements (`IndexError` out of range), a dict
raises `KeyError` (an integer key is never among a JSON object's string
keys), other values raise `TypeError` (not subscriptable). -/
def pySubscript (v : Json) (i : Nat) : Except PyError Json :=
  match v with
  | .arr xs =>
    match xs.get? i with
    | some x => .ok x
    | none => .error .indexError
  | .str s =>
    match s.data.get? i with
    | some c => .ok (.str (String.mk [c]))
    | none => .error .indexError
  | .obj _ => .error .keyError
  | _ => .error .typeError

/-- Outcome of the HTTP POST in `MarketplaceCrawler._make_request`:
either a `RequestException` (connection error, timeout, or the
non-success status raised by `raise_for_status`), or a success
response carrying a parsed JSON body. -/
inductive FetchOutcome where
  | transportError : FetchOutcome
  | success : Json → FetchOutcome

/-- The body access `response.json().get('results', [{}])[0].get('extensions', [])`
of `MarketplaceCrawler._make_request`, with each step's Python
exception behavior. -/
def parseBody (body : Json) : Except PyError Json := do
  let results ← dictGetD body "results" (.arr [.obj []])
  let first ← pySubscript results 0
  dictGetD first "extensions" (.arr [])

/-- `MarketplaceCrawler._make_request`: transport errors are caught and
yield `None` (`Json.null` here), as are `KeyError`/`IndexError` while
parsing the body; any other exception propagates to the caller. -/
def makeRequest (outcome : FetchOutcome) : Except PyError Json :=
  match outcome with
  | .transportError => .ok .null
  | .success body =>
    match parseBody body with
    | .ok v => .ok v
    | .error .keyError => .ok .null
    | .error .indexError => .ok .null
    | .error e => .error e

/-- One extension record as handled by the crawl/save stage: a Python
dict (insertion-ordered association list). -/
abbrev ExtRecord := List (String × Json)

/-- The per-record mutation in `MarketplaceCrawler._save_extensions`:
`extension.pop('versions', None)` removes the `versions` binding and
keeps every other binding in order. -/
def stripVersions (ext : ExtRecord) : ExtRecord :=
  ext.filter (fun p => p.1 != "versions")

/-- `MarketplaceCrawler._save_extensions`: strips `versions` from every
record, then writes the page artifact; `writeOk = false` models an
`IOError` during the write, which is caught and logged, leaving no
artifact.  Returns the (mutated) record list and the optional artifact
`(page, contents)`. -/
def saveExtensions (exts : List ExtRecord) (page : Nat) (writeOk : Bool) :
    List ExtRecord × Option (Nat × List ExtRecord) :=
  let stripped := exts.map stripVersions
  (stripped, if writeOk then some (page, stripped) else none)

/-- The loop of `MarketplaceCrawler.crawl`, starting at `page` with
`fuel` pages left before the `max_pages` cap.  `fetch page = none`
models `_make_request` returning `None`, `some exts` a returned list;
`if not extensions: break` stops on both `None` and the empty list.
Result: (running total, number of save invocations, artifacts written). -/
def crawlFrom (fetch : Nat → Option (List ExtRecord)) (writeOk : Nat → Bool) :
    Nat → Nat → Nat × Nat × List (Nat × List ExtRecord)
  | _, 0 => (0, 0, [])
  | page, fuel + 1 =>
    match fetch page with
    | none => (0, 0, [])
    | some exts =>
      if exts.isEmpty then (0, 0, [])
      else
        let saved := saveExtensions exts page (writeOk page)
        let rest := crawlFrom fetch writeOk (page + 1) fuel
        (exts.length + rest.1, 1 + rest.2.1, saved.2.toList ++ rest.2.2)

/-- `MarketplaceCrawler.crawl(max_pages)`: pages 1, 2, … up to the cap. -/
def crawl (fetch : Nat → Option (List ExtRecord)) (writeOk : Nat → Bool)
    (maxPages : Nat) : Nat × Nat × List (Nat × List ExtRecord) :=
  crawlFrom fetch writeOk 1 maxPages

/-- Sum of the record counts of pages `start, start+1, …, start+k-1`
as reported by `fetch`. -/
def pageSum (fetch : Nat → Option (List ExtRecord)) : Nat → Nat → Nat
  | _, 0 => 0
  | start, k + 1 => ((fetch start).getD []).length + pageSum fetch (start + 1) k

/-- The delimited-text artifact written by
`ExtensionDataProcessor.convert_to_csv`: a header row followed by data
rows, every cell serialized to text. -/
structure CsvTable where
  header : List String
  rows : List (List String)

/-- A relational table as loaded by `pandas.read_csv` + `to_sql`:
column names in order plus data rows over the store's value type. -/
structure DataFrame (α : Type) where
  columns : List String
  rows : List (List α)

/-- `pandas.read_csv`: the text table's header becomes the column list
and every data cell is type-coerced; the coercion function is a
parameter (the claims hold for any per-cell coercion). -/
def readCsv {α : Type} (coerce : String → α) (t : CsvTable) : DataFrame α :=
  ⟨t.header, t.rows.map (fun r => r.map coerce)⟩

/-- Lookup of a table by name in the relational store. -/
def lookupTable {α : Type} (name : String) :
    List (String × DataFrame α) → Option (DataFrame α)
  | [] => none
  | (n, df) :: rest => if n = name then some df else lookupTable name rest

/-- `DataFrame.to_sql(..., if_exists='replace')`: drop any table of the
same name and store the new one. -/
def storeSet {α : Type} (store : List (String × DataFrame α)) (name : String)
    (df : DataFrame α) : List (String × DataFrame α) :=
  (name, df) :: store.filter (fun p => p.1 != name)

/-- `ExtensionDataProcessor.export_to_sqlite`: read the text table back
and load it into the store under `tableName`, replacing wholesale. -/
def exportToSqlite {α : Type} (coerce : String → α) (csv : CsvTable)
    (tableName : String) (store : List (String × DataFrame α)) :
    List (String × DataFrame α) :=
  storeSet store tableName (readCsv coerce csv)

/-- `v` is a Python mapping (a JSON object). -/
def isMapping : Json → Bool
  | .obj _ => true
  | _ => false

/-- `safeNested d ks` holds when walking `ks` through `d` only ever
calls `.get` on mappings: every intermediate value reached while keys
remain is a dict, or the walk has already short-circuited on a missing
or null binding. -/
def safeNested : Json → List String → Bool
  | _, [] => true
  | .obj fields, k :: ks =>
    match alistFind k fields with
    | none => true
    | some .null => true
    | some v => safeNested v ks
  | _, _ :: _ => false

/-- A successful `mapM` over `Except` preserves the list length. -/
theorem mapM_ok_length {α β ε : Type} (f : α → Except ε β) :
    ∀ (xs : List α) (ys : List β), xs.mapM f = .ok ys → ys.length = xs.length := by
  intro xs
  rw [← List.mapM'_eq_mapM]
  induction xs with
  | nil =>
    intro ys h
    simp only [List.mapM'] at h
    cases h
    rfl
  | cons x xs ih =>
    intro ys h
    simp only [List.mapM'] at h
    cases hx : f x with
    | error e => rw [hx] at h; simp [Bind.bind, Except.bind] at h
    | ok b =>
      rw [hx] at h
      cases hxs : xs.mapM' f with
      | error e =>
        rw [hxs] at h
        simp [Bind.bind, Except.bind, Pure.pure, Except.pure] at h
      | ok bs =>
        rw [hxs] at h
        simp only [Bind.bind, Except.bind, Pure.pure, Except.pure] at h
        cases h
        simp [ih bs hxs]

/-- A successful `mapM` over `Except` maps each position of the input
to the same position of the output. -/
theorem mapM_ok_get {α β ε : Type} (f : α → Except ε β) :
    ∀ (xs : List α) (ys : List β), xs.mapM f = .ok ys →
      ∀ (i : Nat) (hx : i < xs.length) (hy : i < ys.length),
        f (xs.get ⟨i, hx⟩) = .ok (ys.get ⟨i, hy⟩) := by
  intro xs
  rw [← List.mapM'_eq_mapM]
  induction xs with
  | nil =>
    intro ys _ i hx _
    exact absurd hx (Nat.not_lt_zero i)
  | cons x xs ih =>
    intro ys h i hx hy
    simp only [List.mapM'] at h
    cases hx' : f x with
    | error e => rw [hx'] at h; simp [Bind.bind, Except.bind] at h
    | ok b =>
      rw [hx'] at h
      cases hxs : xs.mapM' f with
      | error e =>
        rw [hxs] at h
        simp [Bind.bind, Except.bind, Pure.pure, Except.pure] at h
      | ok bs =>
        rw [hxs] at h
        simp only [Bind.bind, Except.bind, Pure.pure, Except.pure] at h
        cases h
        cases i with
        | zero => exact hx'
        | succ j =>
          exact ih bs hxs j (Nat.lt_of_succ_lt_succ hx) (Nat.lt_of_succ_lt_succ hy)

/-- C2: every row that the flattener produces has exactly one value per
`FIELD_MAPPING` entry, and each value sits at the position of its
schema entry in the schema's iteration order. -/
theorem flatten_row_width (ext : Json) (row : List Json)
    (h : processExtension ext = .ok row) :
    row.length = FIELD_MAPPING.length ∧
    ∀ (i : Nat) (hs : i < (FIELD_MAPPING.map Prod.snd).length) (hi : i < row.length),
      processField ext ((FIELD_MAPPING.map Prod.snd).get ⟨i, hs⟩) =
        .ok (row.get ⟨i, hi⟩) := by
  unfold processExtension at h
  constructor
  · have := mapM_ok_length (processField ext) (FIELD_MAPPING.map Prod.snd) row h
    simpa using this
  · intro i hs hi
    exact mapM_ok_get (processField ext) (FIELD_MAPPING.map Prod.snd) row h i hs hi

/-- Witness for C2: the empty record flattens to a full-width row of
`None` values, with the first schema entry producing the first cell. -/
theorem flatten_row_width_witness :
    (List.replicate 18 Json.null).length = FIELD_MAPPING.length ∧
    processField (Json.obj [])
        ((FIELD_MAPPING.map Prod.snd).get ⟨0, by simp [FIELD_MAPPING]⟩) =
      .ok ((List.replicate 18 Json.null).get ⟨0, by simp⟩) :=
  ⟨(flatten_row_width (.obj []) (List.replicate 18 .null) rfl).1,
   (flatten_row_width (.obj []) (List.replicate 18 .null) rfl).2 0
     (by simp [FIELD_MAPPING]) (by simp)⟩

/-- C3 counterexample: a record whose `publisher` field is present but
is a string, not a mapping, makes the flattener raise `AttributeError`
(the nested walk calls `.get` on the string), so the flattener does not
return normally on every record. -/
theorem flatten_raises_on_nonmapping :
    processExtension (.obj [("publisher", .str "hello")]) =
      .error .attributeError := rfl

/-- C3 amended: a missing or null intermediate binding short-circuits
the nested walk to `None`, and the walk returns normally whenever every
intermediate value it reaches is a mapping; but an intermediate value
that is present and is neither null nor a mapping, with a key still to
apply, raises `AttributeError`. -/
theorem nested_walk_behavior :
    (∀ (d : Json) (ks : List String), safeNested d ks = true →
      ∃ v, extractNestedValue d ks = .ok v) ∧
    (∀ (fields : List (String × Json)) (k : String) (ks : List String),
      alistFind k fields = none →
      extractNestedValue (.obj fields) (k :: ks) = .ok .null) ∧
    (∀ (fields : List (String × Json)) (k k2 : String) (ks : List String) (v : Json),
      alistFind k fields = some v → isMapping v = false → v ≠ .null →
      extractNestedValue (.obj fields) (k :: k2 :: ks) = .error .attributeError) := by
  refine ⟨?_, ?_, ?_⟩
  · intro d ks
    induction ks generalizing d with
    | nil => intro _; exact ⟨d, rfl⟩
    | cons k ks ih =>
      intro hsafe
      cases d with
      | obj fields =>
        simp only [extractNestedValue, dictGet]
        cases hf : alistFind k fields with
        | none => exact ⟨.null, rfl⟩
        | some v =>
          cases v with
          | null => exact ⟨.null, rfl⟩
          | bool b =>
            have hsafe' : safeNested (.bool b) ks = true := by
              simpa [safeNested, hf] using hsafe
            simpa [Option.getD, Bind.bind, Except.bind] using ih (.bool b) hsafe'
          | num n =>
            have hsafe' : safeNested (.num n) ks = true := by
              simpa [safeNested, hf] using hsafe
            simpa [Option.getD, Bind.bind, Except.bind] using ih (.num n) hsafe'
          | str s =>
            have hsafe' : safeNested (.str s) ks = true := by
              simpa [safeNested, hf] using hsafe
            simpa [Option.getD, Bind.bind, Except.bind] using ih (.str s) hsafe'
          | arr xs =>
            have hsafe' : safeNested (.arr xs) ks = true := by
              simpa [safeNested, hf] using hsafe
            simpa [Option.getD, Bind.bind, Except.bind] using ih (.arr xs) hsafe'
          | obj gs =>
            have hsafe' : safeNested (.obj gs) ks = true := by
              simpa [safeNested, hf] using hsafe
            simpa [Option.getD, Bind.bind, Except.bind] using ih (.obj gs) hsafe'
      | null => simp [safeNested] at hsafe
      | bool b => simp [safeNested] at hsafe
      | num n => simp [safeNested] at hsafe
      | str s => simp [safeNested] at hsafe
      | arr xs => simp [safeNested] at hsafe
  · intro fields k ks h
    simp [extractNestedValue, dictGet, h, Bind.bind, Except.bind]
  · intro fields k k2 ks v hfind hmap hnull
    simp only [extractNestedValue, dictGet, hfind, Option.getD, Bind.bind, Except.bind]
    cases v with
    | null => exact absurd rfl hnull
    | obj gs => simp [isMapping] at hmap
    | bool b => simp [extractNestedValue, dictGet, Bind.bind, Except.bind]
    | num n => simp [extractNestedValue, dictGet, Bind.bind, Except.bind]
    | str s => simp [extractNestedValue, dictGet, Bind.bind, Except.bind]
    | arr xs => simp [extractNestedValue, dictGet, Bind.bind, Except.bind]

/-- Witness for the amended C3: the spec's own example, a record
`{"publisher": {"publisherId": "abc"}}`, is safe for the path
`publisher_publisherId` and the walk returns normally. -/
theorem nested_walk_behavior_witness :
    ∃ v, extractNestedValue
        (.obj [("publisher", .obj [("publisherId", .str "abc")])])
        ["publisher", "publisherId"] = .ok v :=
  nested_walk_behavior.1
    (.obj [("publisher", .obj [("publisherId", .str "abc")])])
    ["publisher", "publisherId"] rfl

/-- Entries whose `statisticName` does not equal the target are skipped
by the statistics scan. -/
theorem findStat_skip (s : String) :
    ∀ (pre rest : List Json),
      (∀ d ∈ pre, ∃ gs, d = Json.obj gs ∧
        alistFind "statisticName" gs ≠ some (.str s)) →
      findStat s (pre ++ rest) = findStat s rest := by
  intro pre
  induction pre with
  | nil => intro rest _; rfl
  | cons d pre ih =>
    intro rest hpre
    obtain ⟨gs, rfl, hne⟩ := hpre d (List.mem_cons_self d pre)
    have hrest : ∀ d ∈ pre, ∃ gs, d = Json.obj gs ∧
        alistFind "statisticName" gs ≠ some (.str s) :=
      fun d hd => hpre d (List.mem_cons_of_mem _ hd)
    simp only [List.cons_append, findStat, dictGet, Bind.bind, Except.bind]
    cases hf : alistFind "statisticName" gs with
    | none => simpa [Option.getD] using ih rest hrest
    | some v =>
      cases v with
      | str t =>
        have ht : t ≠ s := by
          intro h
          exact hne (by rw [hf, h])
        simp only [Option.getD]
        rw [if_neg ht]
        exact ih rest hrest
      | null => simpa [Option.getD] using ih rest hrest
      | bool b => simpa [Option.getD] using ih rest hrest
      | num n => simpa [Option.getD] using ih rest hrest
      | arr xs => simpa [Option.getD] using ih rest hrest
      | obj hs => simpa [Option.getD] using ih rest hrest

/-- C4: the statistics lookup scans the record's `statistics` sequence
(empty when the key is absent) and yields the `value` field of the
first entry whose `statisticName` equals the target; an absent
sequence, no matching entry, or a matching entry without a `value`
field all yield `None`.  In particular a record with statistics
`[{statisticName: "install", value: 42}]` yields 42 for the target
`install` and `None` for every other target. -/
theorem statistic_lookup :
    (∀ (ext : List (String × Json)), alistFind "statistics" ext = none →
      ∀ s, extractStatisticValue (.obj ext) s = .ok .null) ∧
    (∀ (s : String) (pre : List Json) (entry : List (String × Json))
        (post : List Json) (extRest : List (String × Json)),
      (∀ d ∈ pre, ∃ gs, d = Json.obj gs ∧
        alistFind "statisticName" gs ≠ some (.str s)) →
      alistFind "statisticName" entry = some (.str s) →
      extractStatisticValue
          (.obj (("statistics", .arr (pre ++ .obj entry :: post)) :: extRest)) s =
        .ok ((alistFind "value" entry).getD .null)) ∧
    (∀ (s : String) (stats : List Json) (extRest : List (String × Json)),
      (∀ d ∈ stats, ∃ gs, d = Json.obj gs ∧
        alistFind "statisticName" gs ≠ some (.str s)) →
      extractStatisticValue (.obj (("statistics", .arr stats) :: extRest)) s =
        .ok .null) ∧
    (∀ s : String,
      extractStatisticValue
          (.obj [("statistics",
            .arr [.obj [("statisticName", .str "install"), ("value", .num 42)]])]) s =
        .ok (if s = "install" then .num 42 else .null)) := by
  refine ⟨?_, ?_, ?_, ?_⟩
  · intro ext h s
    simp [extractStatisticValue, dictGetD, h, pyIter, findStat, Bind.bind, Except.bind]
  · intro s pre entry post extRest hpre hentry
    simp only [extractStatisticValue, dictGetD, alistFind, ite_true, Option.getD,
      pyIter, Bind.bind, Except.bind]
    rw [findStat_skip s pre (.obj entry :: post) hpre]
    simp only [findStat, dictGet, hentry, Bind.bind, Except.bind, ite_true]
    cases alistFind "value" entry <;> simp [Option.getD]
  · intro s stats extRest hstats
    simp only [extractStatisticValue, dictGetD, alistFind, ite_true, Option.getD,
      pyIter, Bind.bind, Except.bind]
    rw [← List.append_nil stats, findStat_skip s stats [] hstats]
    rfl
  · intro s
    by_cases h : s = "install"
    · subst h
      rfl
    · have h' : "install" ≠ s := fun he => h he.symm
      simp only [extractStatisticValue, dictGetD, alistFind, ite_true, Option.getD,
        pyIter, Bind.bind, Except.bind, findStat, dictGet]
      rw [if_neg h', if_neg h]

/-- Witness for C4: the spec's example record, scanned past one
non-matching entry, yields 42 for the `install` statistic. -/
theorem statistic_lookup_witness :
    extractStatisticValue
        (.obj [("statistics",
          .arr [.obj [("statisticName", .str "other")],
                .obj [("statisticName", .str "install"), ("value", .num 42)]])])
        "install" =
      .ok ((alistFind "value"
        [("statisticName", Json.str "install"), ("value", Json.num 42)]).getD .null) :=
  statistic_lookup.2.1 "install"
    [.obj [("statisticName", .str "other")]]
    [("statisticName", .str "install"), ("value", .num 42)] [] []
    (by
      intro d hd
      rw [List.mem_singleton] at hd
      subst hd
      exact ⟨[("statisticName", .str "other")], rfl, by simp [alistFind]⟩)
    rfl

/-- C5: for the two date-mapped columns, a found string value is
truncated to the prefix before the first `T` (the spec's example
included); a missing or null value passes through as `None` with no
truncation; every non-date, non-statistics column passes the extracted
value through unchanged. -/
theorem date_truncation :
    (∀ (fs : List (String × Json)) (s : String) (p : String),
      p = "lastUpdated" ∨ p = "publishedDate" →
      alistFind p fs = some (.str s) →
      processField (.obj fs) p = .ok (.str ((pySplit s 'T').headD ""))) ∧
    (∀ (fs : List (String × Json)) (p : String),
      p = "lastUpdated" ∨ p = "publishedDate" →
      alistFind p fs = none ∨ alistFind p fs = some .null →
      processField (.obj fs) p = .ok .null) ∧
    (processField (.obj [("lastUpdated", .str "2021-05-01T10:00:00Z")]) "lastUpdated" =
      .ok (.str "2021-05-01")) ∧
    (∀ (ext : Json) (p : String),
      pyStartsWith p "statistics_" = false →
      p ≠ "lastUpdated" → p ≠ "publishedDate" →
      processField ext p = extractNestedValue ext (pySplit p '_')) := by
  refine ⟨?_, ?_, rfl, ?_⟩
  · intro fs s p hp hfind
    rcases hp with rfl | rfl
    · unfold processField
      rw [if_neg (by decide)]
      rw [show pySplit "lastUpdated" '_' = ["lastUpdated"] from rfl]
      simp only [extractNestedValue, dictGet, hfind, Option.getD, Bind.bind, Except.bind]
      by_cases hs : s = ""
      · subst hs
        rw [if_neg (by simp [pyTruthy])]
        rfl
      · rw [if_pos (by simp [pyTruthy, hs])]
        rfl
    · unfold processField
      rw [if_neg (by decide)]
      rw [show pySplit "publishedDate" '_' = ["publishedDate"] from rfl]
      simp only [extractNestedValue, dictGet, hfind, Option.getD, Bind.bind, Except.bind]
      by_cases hs : s = ""
      · subst hs
        rw [if_neg (by simp [pyTruthy])]
        rfl
      · rw [if_pos (by simp [pyTruthy, hs])]
        rfl
  · intro fs p hp hfind
    rcases hp with rfl | rfl
    · unfold processField
      rw [if_neg (by decide)]
      rw [show pySplit "lastUpdated" '_' = ["lastUpdated"] from rfl]
      rcases hfind with h | h <;>
        simp [extractNestedValue, dictGet, h, Option.getD, Bind.bind, Except.bind,
          pyTruthy]
    · unfold processField
      rw [if_neg (by decide)]
      rw [show pySplit "publishedDate" '_' = ["publishedDate"] from rfl]
      rcases hfind with h | h <;>
        simp [extractNestedValue, dictGet, h, Option.getD, Bind.bind, Except.bind,
          pyTruthy]
  · intro ext p hsw h1 h2
    unfold processField
    rw [if_neg (by simp [hsw])]
    cases hv : extractNestedValue ext (pySplit p '_') with
    | error e => simp [Bind.bind, Except.bind, hv]
    | ok v =>
      simp only [Bind.bind, Except.bind, hv]
      rw [if_neg (by simp [h1, h2])]

/-- Witness for C5: the spec's example timestamp is truncated to its
calendar date on the `publishedDate` column. -/
theorem date_truncation_witness :
    processField (.obj [("publishedDate", .str "2021-05-01T10:00:00Z")])
        "publishedDate" =
      .ok (.str ((pySplit "2021-05-01T10:00:00Z" 'T').headD "")) :=
  date_truncation.1 [("publishedDate", .str "2021-05-01T10:00:00Z")]
    "2021-05-01T10:00:00Z" "publishedDate" (Or.inr rfl) rfl

/-- C6 counterexample: a success response whose body is
`{"results": [5]}` does not yield the fetch-failure signal; the parse
calls `.get` on the number `5`, and the resulting `AttributeError` is
not caught, so `_make_request` raises to its caller. -/
theorem makeRequest_raises_on_nonmapping_result :
    makeRequest (.success (.obj [("results", .arr [.num 5])])) =
      .error .attributeError := rfl

/-- C6 amended: a transport failure returns the failure signal `None`;
a success body that is a mapping without `results`, or whose
`results[0]` is a mapping, returns the `extensions` list or the empty
list when the key is missing (`KeyError`/`IndexError` while indexing,
e.g. an empty `results` list, are caught and yield `None`); but a
non-mapping body, or a non-mapping first element of `results`, raises
an uncaught `AttributeError` to the caller. -/
theorem makeRequest_behavior :
    (makeRequest .transportError = .ok .null) ∧
    (∀ (fields : List (String × Json)), alistFind "results" fields = none →
      makeRequest (.success (.obj fields)) = .ok (.arr [])) ∧
    (∀ (fields gs : List (String × Json)) (rest : List Json),
      alistFind "results" fields = some (.arr (.obj gs :: rest)) →
      makeRequest (.success (.obj fields)) =
        .ok ((alistFind "extensions" gs).getD (.arr []))) ∧
    (∀ (fields : List (String × Json)),
      alistFind "results" fields = some (.arr []) →
      makeRequest (.success (.obj fields)) = .ok .null) ∧
    (∀ (fields : List (String × Json)) (v : Json) (rest : List Json),
      alistFind "results" fields = some (.arr (v :: rest)) →
      isMapping v = false →
      makeRequest (.success (.obj fields)) = .error .attributeError) ∧
    (∀ (body : Json), isMapping body = false →
      makeRequest (.success body) = .error .attributeError) := by
  refine ⟨rfl, ?_, ?_, ?_, ?_, ?_⟩
  · intro fields h
    simp [makeRequest, parseBody, dictGetD, h, pySubscript, Bind.bind, Except.bind,
      Option.getD, alistFind]
  · intro fields gs rest h
    simp only [makeRequest, parseBody, dictGetD, h, pySubscript, Bind.bind,
      Except.bind, Option.getD, List.get?]
  · intro fields h
    simp [makeRequest, parseBody, dictGetD, h, pySubscript, Bind.bind, Except.bind,
      Option.getD]
  · intro fields v rest h hv
    simp only [makeRequest, parseBody, dictGetD, h, pySubscript, Bind.bind,
      Except.bind, Option.getD, List.get?]
    cases v with
    | obj gs => simp [isMapping] at hv
    | null => rfl
    | bool b => rfl
    | num n => rfl
    | str s => rfl
    | arr xs => rfl
  · intro body hbody
    cases body with
    | obj fields => simp [isMapping] at hbody
    | null => rfl
    | bool b => rfl
    | num n => rfl
    | str s => rfl
    | arr xs => rfl

/-- Witness for the amended C6: a well-shaped body yields its
extensions list. -/
theorem makeRequest_behavior_witness :
    makeRequest (.success (.obj [("results",
        .arr [.obj [("extensions", .arr [.obj [("extensionName", .str "x")]])]])])) =
      .ok ((alistFind "extensions"
        [("extensions", Json.arr [.obj [("extensionName", .str "x")]])]).getD
          (.arr [])) :=
  makeRequest_behavior.2.2.1
    [("results", .arr [.obj [("extensions", .arr [.obj [("extensionName", .str "x")]])]])]
    [("extensions", .arr [.obj [("extensionName", .str "x")]])] [] rfl

/-- Stripping never leaves a `versions` binding behind. -/
theorem stripVersions_no_versions (r : ExtRecord) :
    alistFind "versions" (stripVersions r) = none := by
  induction r with
  | nil => rfl
  | cons p r ih =>
    obtain ⟨k, v⟩ := p
    by_cases hk : k = "versions"
    · subst hk
      simpa [stripVersions] using ih
    · simpa [stripVersions, alistFind, hk] using ih

/-- C7: after the snapshot save, every record has lost its `versions`
binding, every binding under any other key is untouched, and the
persisted artifact holds exactly the stripped records. -/
theorem save_frame (exts : List ExtRecord) (page : Nat) (r : ExtRecord)
    (hr : r ∈ exts) :
    (saveExtensions exts page true).1 = exts.map stripVersions ∧
    (saveExtensions exts page true).2 = some (page, exts.map stripVersions) ∧
    alistFind "versions" (stripVersions r) = none ∧
    (∀ (k : String) (v : Json), k ≠ "versions" →
      ((k, v) ∈ stripVersions r ↔ (k, v) ∈ r)) := by
  refine ⟨rfl, rfl, stripVersions_no_versions r, ?_⟩
  intro k v hk
  simp [stripVersions, List.mem_filter, hk]

/-- Witness for C7 at a concrete page: the `versions` binding is gone
and the `name` binding survives. -/
theorem save_frame_witness :
    (saveExtensions [[("versions", Json.arr []), ("name", Json.str "x")]] 1 true).1 =
        [[("versions", Json.arr []), ("name", Json.str "x")]].map stripVersions ∧
    (saveExtensions [[("versions", Json.arr []), ("name", Json.str "x")]] 1 true).2 =
        some (1, [[("versions", Json.arr []), ("name", Json.str "x")]].map stripVersions) ∧
    alistFind "versions"
        (stripVersions [("versions", Json.arr []), ("name", Json.str "x")]) = none ∧
    (∀ (k : String) (v : Json), k ≠ "versions" →
      ((k, v) ∈ stripVersions [("versions", Json.arr []), ("name", Json.str "x")] ↔
        (k, v) ∈ [("versions", Json.arr []), ("name", Json.str "x")])) :=
  save_frame [[("versions", Json.arr []), ("name", Json.str "x")]] 1
    [("versions", Json.arr []), ("name", Json.str "x")]
    (List.mem_singleton.mpr rfl)

/-- C8: running the relational export twice against the same text table
leaves the store exactly as one run does — the replace-on-conflict load
is idempotent. -/
theorem export_idempotent {α : Type} (coerce : String → α) (csv : CsvTable)
    (name : String) (store : List (String × DataFrame α)) :
    exportToSqlite coerce csv name (exportToSqlite coerce csv name store) =
      exportToSqlite coerce csv name store := by
  simp [exportToSqlite, storeSet, List.filter_filter]

/-- C9: after the export, the table looked up under the export's name
has the text table's column order and its exact number of data rows. -/
theorem export_roundtrip {α : Type} (coerce : String → α) (csv : CsvTable)
    (name : String) (store : List (String × DataFrame α))
    (hne : csv.rows ≠ []) :
    ∃ df, lookupTable name (exportToSqlite coerce csv name store) = some df ∧
      df.columns = csv.header ∧ df.rows.length = csv.rows.length := by
  refine ⟨readCsv coerce csv, ?_, rfl, ?_⟩
  · simp [exportToSqlite, storeSet, lookupTable]
  · simp [readCsv]

/-- Witness for C9: a one-row text table round-trips through the store
with its header and row count intact. -/
theorem export_roundtrip_witness :
    ∃ df, lookupTable "vscode_extensions"
        (exportToSqlite (fun s => s) ⟨["publisherId"], [["abc"]]⟩
          "vscode_extensions" []) = some df ∧
      df.columns = CsvTable.header ⟨["publisherId"], [["abc"]]⟩ ∧
      df.rows.length = (CsvTable.rows ⟨["publisherId"], [["abc"]]⟩).length :=
  export_roundtrip (fun s => s) ⟨["publisherId"], [["abc"]]⟩
    "vscode_extensions" [] (by simp)

/-- Counting invariant of the crawl loop: when pages
`start … start+k-1` fetch non-empty and the loop then stops (fuel
exhausted, fetch failure, or an empty page), the running total is the
sum of those pages' record counts, the save is invoked once per page,
and — when every write succeeds — one artifact exists per page. -/
theorem crawlFrom_counts (fetch : Nat → Option (List ExtRecord)) (writeOk : Nat → Bool) :
    ∀ (k fuel start : Nat), k ≤ fuel →
      (∀ i, i < k → ∃ l, fetch (start + i) = some l ∧ l ≠ []) →
      (k = fuel ∨ fetch (start + k) = none ∨ fetch (start + k) = some []) →
      (crawlFrom fetch writeOk start fuel).1 = pageSum fetch start k ∧
      (crawlFrom fetch writeOk start fuel).2.1 = k ∧
      ((∀ p, writeOk p = true) →
        (crawlFrom fetch writeOk start fuel).2.2.length = k) := by
  intro k
  induction k with
  | zero =>
    intro fuel start _ _ hstop
    rcases hstop with rfl | h | h
    · exact ⟨rfl, rfl, fun _ => rfl⟩
    · cases fuel with
      | zero => exact ⟨rfl, rfl, fun _ => rfl⟩
      | succ f =>
        rw [Nat.add_zero] at h
        simp [crawlFrom, h, pageSum]
    · cases fuel with
      | zero => exact ⟨rfl, rfl, fun _ => rfl⟩
      | succ f =>
        rw [Nat.add_zero] at h
        simp [crawlFrom, h, pageSum, List.isEmpty]
  | succ k ih =>
    intro fuel start hle hne hstop
    obtain ⟨l, hl, hlne⟩ := hne 0 (Nat.succ_pos k)
    rw [Nat.add_zero] at hl
    cases fuel with
    | zero => omega
    | succ f =>
      have hk : k ≤ f := Nat.lt_succ_iff.mp hle
      have hne' : ∀ i, i < k → ∃ l, fetch (start + 1 + i) = some l ∧ l ≠ [] := by
        intro i hi
        have h := hne (i + 1) (Nat.succ_lt_succ hi)
        rwa [show start + (i + 1) = start + 1 + i from by omega] at h
      have hstop' : k = f ∨ fetch (start + 1 + k) = none ∨
          fetch (start + 1 + k) = some [] := by
        rcases hstop with h | h | h
        · left; omega
        · right; left
          rwa [show start + (k + 1) = start + 1 + k from by omega] at h
        · right; right
          rwa [show start + (k + 1) = start + 1 + k from by omega] at h
      have ih' := ih f (start + 1) hk hne' hstop'
      cases l with
      | nil => exact absurd rfl hlne
      | cons e es =>
        refine ⟨?_, ?_, ?_⟩
        · simp only [crawlFrom, hl, List.isEmpty, Bool.false_eq_true, if_false,
            pageSum, hl, Option.getD]
          rw [ih'.1]
        · simp only [crawlFrom, hl, List.isEmpty, Bool.false_eq_true, if_false]
          rw [ih'.2.1]
          omega
        · intro hw
          simp only [crawlFrom, hl, List.isEmpty, Bool.false_eq_true, if_false,
            saveExtensions, hw start, ite_true, List.length_append,
            Option.toList, List.length_cons, List.length_nil]
          rw [ih'.2.2 hw]
          omega

/-- C1: when `fetch` yields a non-empty list on pages `1..k` and the
crawl then stops — a failure or empty list at page `k+1`, or `k` being
the page cap, which is not an error — the reported total is the sum of
the per-page record counts for pages `1..k`, the snapshot save is
invoked exactly `k` times, and (all writes succeeding) exactly `k`
artifacts exist. -/
theorem crawl_totals (fetch : Nat → Option (List ExtRecord)) (writeOk : Nat → Bool)
    (maxPages k : Nat)
    (hw : ∀ p, writeOk p = true)
    (hk : k ≤ maxPages)
    (hpages : ∀ p, 1 ≤ p → p ≤ k → ∃ l, fetch p = some l ∧ l ≠ [])
    (hstop : k = maxPages ∨ fetch (k + 1) = none ∨ fetch (k + 1) = some []) :
    (crawl fetch writeOk maxPages).1 = pageSum fetch 1 k ∧
    (crawl fetch writeOk maxPages).2.1 = k ∧
    (crawl fetch writeOk maxPages).2.2.length = k := by
  have hne : ∀ i, i < k → ∃ l, fetch (1 + i) = some l ∧ l ≠ [] := by
    intro i hi
    exact hpages (1 + i) (by omega) (by omega)
  have hstop' : k = maxPages ∨ fetch (1 + k) = none ∨ fetch (1 + k) = some [] := by
    rwa [show 1 + k = k + 1 from by omega]
  have h := crawlFrom_counts fetch writeOk k maxPages 1 hk hne hstop'
  exact ⟨h.1, h.2.1, h.2.2 hw⟩

/-- A fetch sequence with two non-empty pages followed by a failure. -/
def demoFetch : Nat → Option (List ExtRecord) :=
  fun p => if p ≤ 2 then some [[("extensionName", Json.str "x")]] else none

/-- Witness for C1: two non-empty pages under a five-page cap give a
total of both pages' records, two save invocations, two artifacts. -/
theorem crawl_totals_witness :
    (crawl demoFetch (fun _ => true) 5).1 = pageSum demoFetch 1 2 ∧
    (crawl demoFetch (fun _ => true) 5).2.1 = 2 ∧
    (crawl demoFetch (fun _ => true) 5).2.2.length = 2 :=
  crawl_totals demoFetch (fun _ => true) 5 2 (fun _ => rfl) (by omega)
    (by
      intro p h1 h2
      interval_cases p
      · exact ⟨_, rfl, by simp⟩
      · exact ⟨_, rfl, by simp⟩)
    (Or.inr (Or.inl rfl))

/-- The crawl total and the number of save invocations do not depend on
which page writes succeed. -/
theorem crawlFrom_write_independent (fetch : Nat → Option (List ExtRecord)) :
    ∀ (fuel start : Nat) (w1 w2 : Nat → Bool),
      (crawlFrom fetch w1 start fuel).1 = (crawlFrom fetch w2 start fuel).1 ∧
      (crawlFrom fetch w1 start fuel).2.1 = (crawlFrom fetch w2 start fuel).2.1 := by
  intro fuel
  induction fuel with
  | zero => intro start w1 w2; exact ⟨rfl, rfl⟩
  | succ f ih =>
    intro start w1 w2
    cases hf : fetch start with
    | none => simp [crawlFrom, hf]
    | some l =>
      cases l with
      | nil => simp [crawlFrom, hf, List.isEmpty]
      | cons e es =>
        have h := ih (start + 1) w1 w2
        refine ⟨?_, ?_⟩
        · simp only [crawlFrom, hf, List.isEmpty, Bool.false_eq_true, if_false]
          rw [h.1]
        · simp only [crawlFrom, hf, List.isEmpty, Bool.false_eq_true, if_false]
          rw [h.2]

/-- A fetch sequence with one one-record page, then a failure. -/
def demoFetchOne : Nat → Option (List ExtRecord) :=
  fun p => if p = 1 then some [[("extensionName", Json.str "x")]] else none

/-- C10: the running total is accumulated before the snapshot write and
independently of it — totals and save invocations are identical whether
or not any write succeeds — and concretely a crawl whose only page's
write fails still reports that page's one record while the snapshot
directory holds no artifact at all. -/
theorem crawl_total_counts_failed_writes :
    (∀ (fetch : Nat → Option (List ExtRecord)) (writeOk : Nat → Bool)
        (maxPages : Nat),
      (crawl fetch writeOk maxPages).1 =
        (crawl fetch (fun _ => true) maxPages).1 ∧
      (crawl fetch writeOk maxPages).2.1 =
        (crawl fetch (fun _ => true) maxPages).2.1) ∧
    ((crawl demoFetchOne (fun _ => false) 2).1 = 1 ∧
      (crawl demoFetchOne (fun _ => false) 2).2.1 = 1 ∧
      (crawl demoFetchOne (fun _ => false) 2).2.2 = []) := by
  refine ⟨?_, rfl, rfl, rfl⟩
  intro fetch writeOk maxPages
  exact crawlFrom_write_independent fetch maxPages 1 writeOk (fun _ => true)

end Crawler
